import Mathlib

/-!
# drone-kubernetes: the Kubernetes backend engine (`kubernetes.go`)

A shallow embedding of `kubernetes.go`.  Go strings are modelled by Lean
strings, Go slices that the code distinguishes from `nil` by `Option (List _)`,
pointers by `Option`, and the pair `(value, error)` returned by a client call
by a pair of options.  The cluster client (`client-go`) is an external
collaborator: the engine is parametric in a `Clientset σ`, a record of handlers
over an arbitrary cluster state `σ`.  Loops that poll the cluster take a bound
on the number of iterations and return `none` when the bound is reached.
-/

namespace Kubernetes

/-! ## Go runtime -/

/-- A Go `error` value. -/
abbrev Error := String

/-- The run-time faults the engine code can raise. -/
inductive Panic where
  | indexOutOfRange
  | nilDereference
  deriving DecidableEq, Repr

/-- How a Go function call ends: it returns a value, or the goroutine panics. -/
inductive Run (α : Type) where
  | done (a : α)
  | panicked (p : Panic)
  deriving DecidableEq, Repr

/-! ## `k8s.io/api/core/v1` and `backend` data (the fields the engine touches) -/

structure EnvVar where
  Name : String
  Value : String
  deriving DecidableEq, Repr

structure Container where
  Name : String
  Image : String
  WorkingDir : String
  Env : Option (List EnvVar)
  Command : Option (List String)
  deriving DecidableEq, Repr

structure ContainerStateTerminated where
  ExitCode : Int
  deriving DecidableEq, Repr

structure ContainerState where
  Terminated : Option ContainerStateTerminated
  deriving DecidableEq, Repr

structure ContainerStatus where
  State : ContainerState
  deriving DecidableEq, Repr

structure PodStatus where
  Phase : String
  ContainerStatuses : List ContainerStatus
  deriving DecidableEq, Repr

structure ObjectMeta where
  Namespace : String
  Name : String
  deriving DecidableEq, Repr

structure PodSpec where
  Containers : List Container
  RestartPolicy : String
  deriving DecidableEq, Repr

structure Pod where
  ObjectMeta : ObjectMeta
  Spec : PodSpec
  Status : PodStatus
  deriving DecidableEq, Repr

/-- The zero value `v1.PodStatus{}`. -/
def PodStatus.zero : PodStatus := ⟨"", []⟩

/-- The zero value `v1.Pod{}`. -/
def Pod.zero : Pod := ⟨⟨"", ""⟩, ⟨[], ""⟩, PodStatus.zero⟩

/-- The step descriptor `backend.Step`; `Environment` holds the entries of the
Go map (one per key). -/
structure Step where
  Name : String
  Image : String
  WorkingDir : String
  Environment : List (String × String)
  Entrypoint : List String
  Command : List String
  deriving DecidableEq, Repr

/-- The completion state `backend.State`. -/
structure State where
  Exited : Bool
  ExitCode : Int
  OOMKilled : Bool
  deriving DecidableEq, Repr

/-! ## The cluster client -/

/-- The `(*v1.Pod, error)` pair returned by a pod call. -/
abbrev PodReply := Option Pod × Option Error

/-- The calls of `kubernetes.Clientset` that the engine makes, over a cluster
state `σ`.  Each handler gets the arguments of the call and the state, and gives
the reply and the next state. -/
structure Clientset (σ : Type) where
  NamespacesGet : String → σ → Option Error × σ
  NamespacesCreate : String → σ → Option Error × σ
  NamespacesDelete : String → σ → Option Error × σ
  PodsCreate : String → Pod → σ → PodReply × σ
  PodsGet : String → String → σ → PodReply × σ
  PodsLog : String → String → String → σ → (Option String × Option Error) × σ

/-- The engine; the field `namespace_` is the source's `namespace`. -/
structure engine (σ : Type) where
  namespace_ : String
  client : Clientset σ

/-! ## `convertName` -/

/-- The function `regexp.ReplaceAllString` for a pattern that is one literal
character: scanning left to right, every match is replaced by `repl` and every
other character is copied. -/
def replaceAllString (pat : Char) (repl : String) : List Char → List Char
  | [] => []
  | c :: cs =>
    if c = pat then repl.data ++ replaceAllString pat repl cs
    else c :: replaceAllString pat repl cs

def convertName (name : String) : String :=
  ⟨replaceAllString '_' "-" name.data⟩

/-! ## `Setup` and `Destroy` -/

def engine.Setup {σ : Type} (e : engine σ) (s : σ) : Option Error × σ :=
  match e.client.NamespacesGet e.namespace_ s with
  | (none, s1) => (none, s1)
  | (some _, s1) =>
    match e.client.NamespacesCreate e.namespace_ s1 with
    | (some err, s2) => (some err, s2)
    | (none, s2) => (none, s2)

def engine.Destroy {σ : Type} (e : engine σ) (s : σ) : Option Error × σ :=
  match e.client.NamespacesDelete e.namespace_ s with
  | (some err, s1) => (some err, s1)
  | (none, s1) => (none, s1)

/-! ## `toConfig` -/

/-- The environment of the container: `nil` for an empty map, else one entry
appended per map entry, in the order `order` in which `range` visits the map. -/
def toConfig.env (order : List (String × String) → List (String × String))
    (proc : Step) : Option (List EnvVar) :=
  if proc.Environment.length ≠ 0 then
    some ((order proc.Environment).foldl (fun env kv => env ++ [⟨kv.1, kv.2⟩]) [])
  else none

/-- The command of the container. -/
def toConfig.command (proc : Step) : Option (List String) :=
  if proc.Entrypoint.length ≠ 0 ∨ proc.Command.length ≠ 0 then
    let c0 : List String := []
    let c1 := if proc.Entrypoint.length ≠ 0 then c0 ++ proc.Entrypoint else c0
    let c2 := if proc.Command.length ≠ 0 then c1 ++ proc.Command else c1
    some c2
  else none

/-- The pod built for a step.  Go leaves the iteration order of a map
unspecified: `order` is the order in which `range` visits the entries. -/
def toConfig (order : List (String × String) → List (String × String))
    (proc : Step) (namespace_ : String) : Pod :=
  let container : Container :=
    { Name := convertName proc.Name
      Image := proc.Image
      WorkingDir := proc.WorkingDir
      Env := toConfig.env order proc
      Command := toConfig.command proc }
  { ObjectMeta := { Namespace := namespace_, Name := convertName proc.Name }
    Spec := { Containers := [container], RestartPolicy := "Never" }
    Status := PodStatus.zero }

/-! ## `getPod`, `Exec`, `Wait`, `Tail`, `Kill` -/

def engine.getPod {σ : Type} (e : engine σ) (name : String) (s : σ) : PodReply × σ :=
  let name := convertName name
  e.client.PodsGet e.namespace_ name s

/-- The loop `for pod.Status.Phase == "Pending" { pod, _ = e.getPod(proc.Name) }`
of `Exec`, run for at most the given number of iterations.  The error of the
fetch is dropped; evaluating the condition on a nil pod panics. -/
def engine.Exec.loop {σ : Type} (e : engine σ) (name : String) :
    Nat → Option Pod → σ → Option (Run (Option Error) × σ)
  | _, none, s => some (.panicked .nilDereference, s)
  | 0, some pod, s =>
    if pod.Status.Phase = "Pending" then none else some (.done none, s)
  | fuel + 1, some pod, s =>
    if pod.Status.Phase = "Pending" then
      match e.getPod name s with
      | ((pod1, _), s1) => engine.Exec.loop e name fuel pod1 s1
    else some (.done none, s)

/-- The part of `Exec` after the creation: `pod, _ = e.getPod(proc.Name)`, the
loop, and `return nil`. -/
def engine.Exec.waitForStart {σ : Type} (e : engine σ) (name : String) (fuel : Nat) (s : σ) :
    Option (Run (Option Error) × σ) :=
  match e.getPod name s with
  | ((pod, _), s1) => engine.Exec.loop e name fuel pod s1

def engine.Exec {σ : Type} (e : engine σ)
    (order : List (String × String) → List (String × String))
    (proc : Step) (fuel : Nat) (s : σ) : Option (Run (Option Error) × σ) :=
  let pod_config := toConfig order proc e.namespace_
  match e.client.PodsCreate e.namespace_ pod_config s with
  | ((_, some err), s1) => some (.done (some err), s1)
  | ((_, none), s1) => engine.Exec.waitForStart e proc.Name fuel s1

/-- The value returned after the loop of `Wait`:
`pod.Status.ContainerStatuses[0].State.Terminated.ExitCode` in a `backend.State`.
Indexing an empty slice and reading through a nil `Terminated` panic.  The
conversion `int(...)` of the `int32` exit code keeps its value. -/
def engine.Wait.result (pod : Pod) : Run (Option State × Option Error) :=
  match pod.Status.ContainerStatuses with
  | [] => .panicked .indexOutOfRange
  | status :: _ =>
    match status.State.Terminated with
    | none => .panicked .nilDereference
    | some t => .done (some { Exited := true, ExitCode := t.ExitCode, OOMKilled := false }, none)

/-- The loop `for pod.Status.Phase == "Running" { ... }` of `Wait`, run for at
most the given number of iterations. -/
def engine.Wait.loop {σ : Type} (e : engine σ) (name : String) :
    Nat → Option Pod → σ → Option (Run (Option State × Option Error) × σ)
  | _, none, s => some (.panicked .nilDereference, s)
  | 0, some pod, s =>
    if pod.Status.Phase = "Running" then none else some (engine.Wait.result pod, s)
  | fuel + 1, some pod, s =>
    if pod.Status.Phase = "Running" then
      match e.getPod name s with
      | ((_, some err), s1) => some (.done (none, some err), s1)
      | ((pod1, none), s1) => engine.Wait.loop e name fuel pod1 s1
    else some (engine.Wait.result pod, s)

def engine.Wait {σ : Type} (e : engine σ) (proc : Step) (fuel : Nat) (s : σ) :
    Option (Run (Option State × Option Error) × σ) :=
  match e.getPod proc.Name s with
  | ((_, some err), s1) => some (.done (none, some err), s1)
  | ((pod, none), s1) => engine.Wait.loop e proc.Name fuel pod s1

def engine.Tail {σ : Type} (e : engine σ) (proc : Step) (s : σ) :
    (Option String × Option Error) × σ :=
  e.client.PodsLog e.namespace_ (convertName proc.Name) "true" s

def engine.Kill {σ : Type} (_e : engine σ) (_proc : Step) (s : σ) : Option Error × σ :=
  (none, s)

/-! ## A cluster to run the engine against

The cluster records every call it receives.  It keeps the set of existing
namespaces; what it answers to the calls whose outcome the engine cannot
determine (whether a creation is refused, what a pod fetch observes) is given
by a `Script`. -/

inductive Request where
  | namespacesGet (name : String)
  | namespacesCreate (name : String)
  | namespacesDelete (name : String)
  | podsCreate (ns : String) (pod : Pod)
  | podsGet (ns name : String)
  | podsLog (ns name follow : String)
  deriving DecidableEq, Repr

structure Cluster where
  /-- The namespaces that exist. -/
  namespaces : List String
  /-- The number of pod fetches answered so far. -/
  fetched : Nat
  /-- Every call received so far, oldest first. -/
  calls : List Request
  deriving DecidableEq, Repr

structure Script where
  /-- The error with which the creation of a namespace that does not exist is
  refused (quota, permissions), if it is refused. -/
  refuse : String → Option Error
  /-- The error of a pod creation, if it fails. -/
  podCreate : Option Error
  /-- The reply to the `i`-th pod fetch, counted from 0. -/
  fetch : Nat → PodReply
  /-- The reply to a log request. -/
  logs : Option String × Option Error

def Cluster.record (c : Cluster) (r : Request) : Cluster :=
  { c with calls := c.calls ++ [r] }

/-- The client of a cluster following `sc`: a namespace lookup succeeds exactly
when the namespace exists, a successful creation makes it exist, a successful
deletion removes it, and the `i`-th pod fetch is answered by `sc.fetch i`. -/
def Script.client (sc : Script) : Clientset Cluster where
  NamespacesGet name c :=
    (if name ∈ c.namespaces then none else some "not found",
      c.record (.namespacesGet name))
  NamespacesCreate name c :=
    if name ∈ c.namespaces then
      (some "already exists", c.record (.namespacesCreate name))
    else
      match sc.refuse name with
      | some err => (some err, c.record (.namespacesCreate name))
      | none =>
        (none, { (c.record (.namespacesCreate name)) with namespaces := name :: c.namespaces })
  NamespacesDelete name c :=
    if name ∈ c.namespaces then
      (none, { (c.record (.namespacesDelete name)) with
                namespaces := c.namespaces.filter (fun n => n ≠ name) })
    else (some "not found", c.record (.namespacesDelete name))
  PodsCreate ns pod c :=
    ((some pod, sc.podCreate), c.record (.podsCreate ns pod))
  PodsGet ns name c :=
    (sc.fetch c.fetched, { (c.record (.podsGet ns name)) with fetched := c.fetched + 1 })
  PodsLog ns name follow c :=
    (sc.logs, c.record (.podsLog ns name follow))

/-- The engine for namespace `ns` on a cluster following `sc`. -/
def Script.engine (sc : Script) (ns : String) : engine Cluster :=
  { namespace_ := ns, client := sc.client }

/-- The replies `rs`, in order, followed by the replies of `rest`. -/
def replies (rs : List PodReply) (rest : Nat → PodReply) : Nat → PodReply :=
  fun i => if h : i < rs.length then rs.get ⟨i, h⟩ else rest (i - rs.length)

/-- A successful fetch observing `pod`. -/
def observed (pod : Pod) : PodReply := (some pod, none)

/-- A failed fetch as `client-go` returns it: the error, with a pointer to an
empty pod. -/
def failed (err : Error) : PodReply := (some Pod.zero, some err)

/-- A pod observation with the given phase and container statuses. -/
def podIn (phase : String) (statuses : List ContainerStatus) : Pod :=
  { Pod.zero with Status := { Phase := phase, ContainerStatuses := statuses } }

/-- The status of a container that terminated with the given exit code. -/
def terminated (code : Int) : ContainerStatus := ⟨⟨some ⟨code⟩⟩⟩

/-- The status of a container that has not terminated. -/
def notTerminated : ContainerStatus := ⟨⟨none⟩⟩

/-- The cluster after `k` more fetches of the pod `name` in namespace `ns`. -/
def Cluster.afterFetches (c : Cluster) (ns name : String) (k : Nat) : Cluster :=
  { c with fetched := c.fetched + k
           calls := c.calls ++ List.replicate k (.podsGet ns name) }

def Request.isNamespacesCreate : Request → Bool
  | .namespacesCreate _ => true
  | _ => false

/-- The number of namespace creation calls the cluster has received. -/
def Cluster.creations (c : Cluster) : Nat :=
  c.calls.countP Request.isNamespacesCreate

/-- How `Wait` ends on a reply that ends its polling: a failed fetch, a nil pod,
or a pod whose phase is not `Running`; `none` for a reply after which `Wait`
polls again. -/
def engine.Wait.stop : PodReply → Option (Run (Option State × Option Error))
  | (_, some err) => some (.done (none, some err))
  | (none, none) => some (.panicked .nilDereference)
  | (some pod, none) =>
    if pod.Status.Phase = "Running" then none else some (engine.Wait.result pod)

/-- A step with an underscore in its name, two variables and a command. -/
def exampleStep : Step :=
  { Name := "build_step_1"
    Image := "golang"
    WorkingDir := "/go"
    Environment := [("GOOS", "linux"), ("CGO", "0")]
    Entrypoint := ["a", "b"]
    Command := ["c"] }

/-- A cluster that accepts every creation and observes the pod of a step as
`Pending`, `Running`, `Running`, and then `Succeeded` with exit code 0. -/
def exampleScript : Script :=
  { refuse := fun _ => none
    podCreate := none
    fetch := replies [observed (podIn "Pending" []), observed (podIn "Running" []),
      observed (podIn "Running" [notTerminated])]
      (fun _ => observed (podIn "Succeeded" [terminated 0]))
    logs := (some "", none) }

/-- A cluster on which the first fetch of a pod fails. -/
def lostScript : Script :=
  { exampleScript with fetch := fun _ => failed "not found" }

/-- A cluster that observes the pod of a step as `Failed` with exit code 137. -/
def killedScript : Script :=
  { exampleScript with fetch := fun _ => observed (podIn "Failed" [terminated 137]) }

/-- A cluster that refuses the creation of every namespace. -/
def refusingScript : Script :=
  { exampleScript with refuse := fun _ => some "forbidden" }

/-- A cluster with namespace `default` only, before any call. -/
def freshCluster : Cluster := ⟨["default"], 0, []⟩

/-- The environment entry of a map entry. -/
def EnvVar.ofEntry (kv : String × String) : EnvVar := ⟨kv.1, kv.2⟩

/-! ## `convertName`: character-wise description -/

theorem replaceAllString_underscore (l : List Char) :
    replaceAllString '_' "-" l = l.map (fun c => if c = '_' then '-' else c) := by
  induction l with
  | nil => rfl
  | cons c cs ih =>
    by_cases h : c = '_'
    · simp [replaceAllString, h, ih]
    · simp [replaceAllString, h, ih]

theorem convertName_data (s : String) :
    (convertName s).data = s.data.map (fun c => if c = '_' then '-' else c) :=
  replaceAllString_underscore s.data

theorem utf8ByteSize_go_map (l : List Char) :
    String.utf8ByteSize.go (l.map (fun c => if c = '_' then '-' else c)) =
      String.utf8ByteSize.go l := by
  induction l with
  | nil => rfl
  | cons c cs ih =>
    by_cases h : c = '_'
    · subst h
      simp only [List.map_cons, String.utf8ByteSize.go, ih, if_true]
      rfl
    · simp only [List.map_cons, String.utf8ByteSize.go, ih, if_neg h]

theorem convertName_utf8ByteSize (s : String) :
    (convertName s).utf8ByteSize = s.utf8ByteSize := by
  have h := utf8ByteSize_go_map s.data
  rw [← convertName_data] at h
  exact h

/-- Claim C1: `convertName s` has the length of `s`; at every position it has a
hyphen where `s` has an underscore and the character of `s` elsewhere; it
contains no underscore; and `build_step_1` maps to `build-step-1`. -/
theorem convertName_spec (s : String) :
    (convertName s).length = s.length ∧
    (convertName s).utf8ByteSize = s.utf8ByteSize ∧
    (∀ (i : Nat) (c : Char), s.data[i]? = some c →
      (c = '_' → (convertName s).data[i]? = some '-') ∧
      (c ≠ '_' → (convertName s).data[i]? = some c)) ∧
    '_' ∉ (convertName s).data ∧
    convertName "build_step_1" = "build-step-1" := by
  refine ⟨?_, ?_, ?_, ?_, by decide⟩
  · show (convertName s).data.length = s.data.length
    rw [convertName_data, List.length_map]
  · exact convertName_utf8ByteSize s
  · intro i c hc
    rw [convertName_data, List.getElem?_map, hc]
    constructor
    · intro h; simp [h]
    · intro h; simp [h]
  · rw [convertName_data]
    intro hmem
    rcases List.mem_map.1 hmem with ⟨c, -, hc⟩
    by_cases h : c = '_'
    · simp [h] at hc
    · simp [h] at hc

/-- Claim C9: `convertName` is idempotent, and a name without an underscore is
returned unchanged. -/
theorem convertName_idempotent (s : String) :
    convertName (convertName s) = convertName s ∧
    ('_' ∉ s.data → convertName s = s) := by
  constructor
  · apply String.ext
    rw [convertName_data, convertName_data, List.map_map]
    apply List.map_congr_left
    intro c _
    by_cases h : c = '_'
    · simp [h]
    · simp [h]
  · intro hs
    apply String.ext
    rw [convertName_data]
    conv_rhs => rw [← List.map_id s.data]
    apply List.map_congr_left
    intro c hc
    have h : c ≠ '_' := fun h => hs (h ▸ hc)
    simp [h]

/-! ## `toConfig` -/

theorem foldl_append_entry (l : List (String × String)) (acc : List EnvVar) :
    l.foldl (fun env kv => env ++ [(⟨kv.1, kv.2⟩ : EnvVar)]) acc =
      acc ++ l.map EnvVar.ofEntry := by
  induction l generalizing acc with
  | nil => simp
  | cons kv l ih => simp [List.foldl_cons, ih, EnvVar.ofEntry]

/-- Claim C5: the container command built by `toConfig` is absent when the
entrypoint and the command of the step are both empty, and otherwise is the
entrypoint tokens followed by the command tokens; entrypoint `[a, b]` and
command `[c]` give `[a, b, c]`. -/
theorem toConfig_command (order : List (String × String) → List (String × String))
    (proc : Step) (ns : String) :
    (∃ c, (toConfig order proc ns).Spec.Containers = [c] ∧
      (proc.Entrypoint = [] ∧ proc.Command = [] → c.Command = none) ∧
      (¬ (proc.Entrypoint = [] ∧ proc.Command = []) →
        c.Command = some (proc.Entrypoint ++ proc.Command))) ∧
    (∀ name image dir env, ∃ c,
      (toConfig order ⟨name, image, dir, env, ["a", "b"], ["c"]⟩ ns).Spec.Containers = [c] ∧
      c.Command = some ["a", "b", "c"]) := by
  refine ⟨⟨_, rfl, ?_, ?_⟩, fun _ _ _ _ => ⟨_, rfl, rfl⟩⟩
  · rintro ⟨he, hc⟩
    simp [toConfig.command, he, hc]
  · intro h
    rcases proc with ⟨name, image, dir, env, ep, cmd⟩
    cases ep <;> cases cmd <;> simp [toConfig.command] at h ⊢

/-- Claim C6: whatever the order in which the map of the step is visited, the
container environment built by `toConfig` is absent when the step declares no
variable, and otherwise is a list that is a permutation of the declared
name/value pairs: one entry per declared variable and no other. -/
theorem toConfig_env (order : List (String × String) → List (String × String))
    (horder : ∀ m, (order m).Perm m) (proc : Step) (ns : String) :
    ∃ c, (toConfig order proc ns).Spec.Containers = [c] ∧
      (proc.Environment = [] → c.Env = none) ∧
      (proc.Environment ≠ [] → ∃ env, c.Env = some env ∧
        env.Perm (proc.Environment.map EnvVar.ofEntry) ∧
        env.length = proc.Environment.length ∧
        (∀ k v, (⟨k, v⟩ : EnvVar) ∈ env ↔ (k, v) ∈ proc.Environment) ∧
        ((proc.Environment.map Prod.fst).Nodup → (env.map EnvVar.Name).Nodup)) := by
  refine ⟨_, rfl, ?_, ?_⟩
  · intro h
    simp [toConfig.env, h]
  · intro h
    have hlen : proc.Environment.length ≠ 0 := by
      intro h0
      exact h (List.length_eq_zero.1 h0)
    have hperm : ((order proc.Environment).map EnvVar.ofEntry).Perm
        (proc.Environment.map EnvVar.ofEntry) := (horder proc.Environment).map _
    refine ⟨(order proc.Environment).map EnvVar.ofEntry, ?_, hperm, ?_, ?_, ?_⟩
    · simp [toConfig.env, hlen, foldl_append_entry]
    · rw [hperm.length_eq, List.length_map]
    · intro k v
      rw [hperm.mem_iff, List.mem_map]
      constructor
      · rintro ⟨⟨k1, v1⟩, hmem, heq⟩
        simp only [EnvVar.ofEntry, EnvVar.mk.injEq] at heq
        rw [← heq.1, ← heq.2]
        exact hmem
      · intro hmem
        exact ⟨(k, v), hmem, rfl⟩
    · intro hnd
      have hnames : ((order proc.Environment).map EnvVar.ofEntry).map EnvVar.Name =
          (order proc.Environment).map Prod.fst := by
        rw [List.map_map]
        rfl
      rw [hnames]
      exact (((horder proc.Environment).map Prod.fst).nodup_iff).2 hnd

/-- The step `exampleStep`, which declares two variables, with its map visited
in reverse order. -/
theorem toConfig_env_witness :
    ∃ c, (toConfig List.reverse exampleStep "hello").Spec.Containers = [c] ∧
      ∃ env, c.Env = some env ∧
        env.Perm [⟨"GOOS", "linux"⟩, ⟨"CGO", "0"⟩] ∧ env.length = 2 := by
  obtain ⟨c, hc, -, henv⟩ :=
    toConfig_env List.reverse (fun m => List.reverse_perm m) exampleStep "hello"
  obtain ⟨env, h1, h2, h3, -, -⟩ := henv (by simp [exampleStep])
  exact ⟨c, hc, env, h1, h2, h3⟩

/-! ## Calls against the recording cluster -/

theorem getPod_script (sc : Script) (ns name : String) (c : Cluster) :
    (sc.engine ns).getPod name c =
      (sc.fetch c.fetched, c.afterFetches ns (convertName name) 1) := rfl

theorem afterFetches_succ (c : Cluster) (ns name : String) (k : Nat) :
    (c.afterFetches ns name 1).afterFetches ns name k = c.afterFetches ns name (k + 1) := by
  simp only [Cluster.afterFetches, List.append_assoc, Cluster.mk.injEq, true_and]
  constructor
  · omega
  · rw [List.replicate_succ]
    rfl

theorem afterFetches_fetched (c : Cluster) (ns name : String) (k : Nat) :
    (c.afterFetches ns name k).fetched = c.fetched + k := rfl

/-! ## `Wait` -/

theorem Wait_loop_running {σ : Type} (e : engine σ) (proc : Step) (fuel : Nat) (p : Pod)
    (s : σ) (h : p.Status.Phase = "Running") :
    engine.Wait.loop e proc.Name (fuel + 1) (some p) s = e.Wait proc fuel s := by
  simp only [engine.Wait.loop, h, if_true, engine.Wait]

theorem Wait_loop_stop {σ : Type} (e : engine σ) (name : String) (fuel : Nat) (q : Pod)
    (s : σ) (h : q.Status.Phase ≠ "Running") :
    engine.Wait.loop e name fuel (some q) s = some (engine.Wait.result q, s) := by
  cases fuel <;> simp [engine.Wait.loop, h]

/-- After `n` observations in phase `Running`, `Wait` ends on the first reply that
is not such an observation, with the outcome `engine.Wait.stop` gives for it,
and has made `n + 1` fetches. -/
theorem Wait_poll (sc : Script) (ns : String) (proc : Step) :
    ∀ (n fuel : Nat) (c : Cluster), n ≤ fuel →
      (∀ i, i < n → ∃ p, sc.fetch (c.fetched + i) = observed p ∧
        p.Status.Phase = "Running") →
      ∀ out, engine.Wait.stop (sc.fetch (c.fetched + n)) = some out →
      (sc.engine ns).Wait proc fuel c =
        some (out, c.afterFetches ns (convertName proc.Name) (n + 1)) := by
  intro n
  induction n with
  | zero =>
    intro fuel c _ _ out hout
    rw [Nat.add_zero] at hout
    unfold engine.Wait
    rw [getPod_script]
    rcases hr : sc.fetch c.fetched with ⟨po, eo⟩
    rw [hr] at hout
    cases eo with
    | some err =>
      simp only [engine.Wait.stop, Option.some.injEq] at hout
      simp [← hout]
    | none =>
      cases po with
      | none =>
        simp only [engine.Wait.stop, Option.some.injEq] at hout
        simp [← hout, engine.Wait.loop]
      | some q =>
        by_cases hq : q.Status.Phase = "Running"
        · simp [engine.Wait.stop, hq] at hout
        · simp only [engine.Wait.stop, hq, if_false, Option.some.injEq] at hout
          simp only [Wait_loop_stop _ _ _ _ _ hq, ← hout]
  | succ n ih =>
    intro fuel c hfuel hrun out hout
    obtain ⟨p, hp, hphase⟩ := hrun 0 (Nat.succ_pos n)
    rw [Nat.add_zero] at hp
    obtain ⟨f, rfl⟩ : ∃ f, fuel = f + 1 := ⟨fuel - 1, by omega⟩
    unfold engine.Wait
    rw [getPod_script, hp]
    simp only [observed]
    rw [Wait_loop_running _ _ _ _ _ hphase, ih f _ (by omega) _ out _, afterFetches_succ]
    · intro i hi
      rw [afterFetches_fetched]
      have := hrun (i + 1) (by omega)
      rwa [show c.fetched + 1 + i = c.fetched + (i + 1) by omega]
    · rw [afterFetches_fetched]
      rwa [show c.fetched + 1 + n = c.fetched + (n + 1) by omega]

/-- Claim C3: when the fetches made by `Wait` observe `n` times the phase
`Running` and then a pod in another phase whose first container has a terminal
record with exit code `code`, `Wait` (allowed at least `n` iterations) returns
the state `(exited, code, not OOM-killed)` and no error, after exactly `n + 1`
fetches. -/
theorem Wait_returns_exit_code (sc : Script) (ns : String) (proc : Step) (n fuel : Nat)
    (c : Cluster) (q : Pod) (st : ContainerStatus) (rest : List ContainerStatus) (code : Int)
    (hfuel : n ≤ fuel)
    (hrun : ∀ i, i < n → ∃ p, sc.fetch (c.fetched + i) = observed p ∧
      p.Status.Phase = "Running")
    (hq : sc.fetch (c.fetched + n) = observed q)
    (hphase : q.Status.Phase ≠ "Running")
    (hst : q.Status.ContainerStatuses = st :: rest)
    (hcode : st.State.Terminated = some ⟨code⟩) :
    (sc.engine ns).Wait proc fuel c =
      some (.done (some { Exited := true, ExitCode := code, OOMKilled := false }, none),
        c.afterFetches ns (convertName proc.Name) (n + 1)) := by
  apply Wait_poll sc ns proc n fuel c hfuel hrun
  rw [hq]
  simp [observed, engine.Wait.stop, hphase, engine.Wait.result, hst, hcode]

/-- Claim C4: when the fetches made by `Wait` observe `k` times the phase
`Running` and the next fetch fails, `Wait` (allowed at least `k` iterations)
returns the error of that fetch and no state, after exactly `k + 1` fetches. -/
theorem Wait_returns_fetch_error (sc : Script) (ns : String) (proc : Step) (k fuel : Nat)
    (c : Cluster) (po : Option Pod) (err : Error)
    (hfuel : k ≤ fuel)
    (hrun : ∀ i, i < k → ∃ p, sc.fetch (c.fetched + i) = observed p ∧
      p.Status.Phase = "Running")
    (hfail : sc.fetch (c.fetched + k) = (po, some err)) :
    (sc.engine ns).Wait proc fuel c =
      some (.done (none, some err), c.afterFetches ns (convertName proc.Name) (k + 1)) := by
  apply Wait_poll sc ns proc k fuel c hfuel hrun
  rw [hfail]
  cases po <;> rfl

/-- Claim C10: on successful fetches, `Wait` stops at the first observation `q`
whose phase is not `Running` and reads the terminal record of its first
container: it returns a state when `q` has a first container status with a
terminal record, and panics otherwise (index out of range without a container
status, nil dereference without a terminal record). -/
theorem Wait_stops_at_first_not_running (sc : Script) (ns : String) (proc : Step)
    (n fuel : Nat) (c : Cluster) (q : Pod)
    (hfuel : n ≤ fuel)
    (hrun : ∀ i, i < n → ∃ p, sc.fetch (c.fetched + i) = observed p ∧
      p.Status.Phase = "Running")
    (hq : sc.fetch (c.fetched + n) = observed q)
    (hphase : q.Status.Phase ≠ "Running") :
    (∀ st rest t, q.Status.ContainerStatuses = st :: rest → st.State.Terminated = some t →
      (sc.engine ns).Wait proc fuel c =
        some (.done (some { Exited := true, ExitCode := t.ExitCode, OOMKilled := false }, none),
          c.afterFetches ns (convertName proc.Name) (n + 1))) ∧
    (q.Status.ContainerStatuses = [] →
      (sc.engine ns).Wait proc fuel c =
        some (.panicked .indexOutOfRange, c.afterFetches ns (convertName proc.Name) (n + 1))) ∧
    (∀ st rest, q.Status.ContainerStatuses = st :: rest → st.State.Terminated = none →
      (sc.engine ns).Wait proc fuel c =
        some (.panicked .nilDereference, c.afterFetches ns (convertName proc.Name) (n + 1))) ∧
    ((∃ r c1, (sc.engine ns).Wait proc fuel c = some (.done r, c1)) ↔
      ∃ st rest t, q.Status.ContainerStatuses = st :: rest ∧ st.State.Terminated = some t) := by
  have hstop : engine.Wait.stop (sc.fetch (c.fetched + n)) = some (engine.Wait.result q) := by
    rw [hq]
    simp [observed, engine.Wait.stop, hphase]
  have hwait := Wait_poll sc ns proc n fuel c hfuel hrun _ hstop
  rw [hwait]
  refine ⟨?_, ?_, ?_, ?_⟩
  · intro st rest t hst ht
    simp [engine.Wait.result, hst, ht]
  · intro hst
    simp [engine.Wait.result, hst]
  · intro st rest hst ht
    simp [engine.Wait.result, hst, ht]
  · constructor
    · rintro ⟨r, c1, h⟩
      rcases hs : q.Status.ContainerStatuses with _ | ⟨st, rest⟩
      · simp [engine.Wait.result, hs] at h
      · rcases ht : st.State.Terminated with _ | t
        · simp [engine.Wait.result, hs, ht] at h
        · exact ⟨st, rest, t, rfl, ht⟩
    · rintro ⟨st, rest, t, hst, ht⟩
      refine ⟨(some ⟨true, t.ExitCode, false⟩, none),
        c.afterFetches ns (convertName proc.Name) (n + 1), ?_⟩
      simp [engine.Wait.result, hst, ht]

/-- On the cluster of `exampleScript`, `Exec` consumes the observations `Pending`
and `Running`; `Wait` then observes `Running` and `Succeeded` with exit code 0.
On the cluster of `killedScript`, `Wait` observes exit code 137 at once. -/
theorem Wait_returns_exit_code_witness :
    (exampleScript.engine "hello").Exec id exampleStep 1 freshCluster =
      some (.done none,
        (freshCluster.record (.podsCreate "hello" (toConfig id exampleStep "hello"))).afterFetches
          "hello" "build-step-1" 2) ∧
    (exampleScript.engine "hello").Wait exampleStep 1
        ((freshCluster.record (.podsCreate "hello" (toConfig id exampleStep "hello"))).afterFetches
          "hello" "build-step-1" 2) =
      some (.done (some { Exited := true, ExitCode := 0, OOMKilled := false }, none),
        ((freshCluster.record (.podsCreate "hello" (toConfig id exampleStep "hello"))).afterFetches
          "hello" "build-step-1" 2).afterFetches "hello" (convertName exampleStep.Name) 2) ∧
    (killedScript.engine "hello").Wait exampleStep 0 freshCluster =
      some (.done (some { Exited := true, ExitCode := 137, OOMKilled := false }, none),
        freshCluster.afterFetches "hello" (convertName exampleStep.Name) 1) := by
  refine ⟨by decide, ?_, ?_⟩
  · refine Wait_returns_exit_code exampleScript "hello" exampleStep 1 1 _
      (podIn "Succeeded" [terminated 0]) (terminated 0) [] 0 (Nat.le_refl 1) ?_ rfl
      (by decide) rfl rfl
    intro i hi
    obtain rfl : i = 0 := by omega
    exact ⟨podIn "Running" [notTerminated], rfl, rfl⟩
  · exact Wait_returns_exit_code killedScript "hello" exampleStep 0 0 freshCluster
      (podIn "Failed" [terminated 137]) (terminated 137) [] 137 (Nat.le_refl 0)
      (fun i hi => absurd hi (Nat.not_lt_zero i)) rfl (by decide) rfl rfl

/-- On the cluster of `lostScript`, where the pod is not found, `Wait` returns the
error of its first fetch. -/
theorem Wait_returns_fetch_error_witness :
    (lostScript.engine "hello").Wait exampleStep 0 freshCluster =
      some (.done (none, some "not found"),
        freshCluster.afterFetches "hello" (convertName exampleStep.Name) 1) :=
  Wait_returns_fetch_error lostScript "hello" exampleStep 0 0 freshCluster (some Pod.zero)
    "not found" (Nat.le_refl 0) (fun i hi => absurd hi (Nat.not_lt_zero i)) rfl

/-- On the cluster of `exampleScript`, whose first observation has the phase
`Pending` and no container status, `Wait` panics with an index out of range. -/
theorem Wait_stops_at_first_not_running_witness :
    (exampleScript.engine "hello").Wait exampleStep 0 freshCluster =
      some (.panicked .indexOutOfRange,
        freshCluster.afterFetches "hello" (convertName exampleStep.Name) 1) :=
  (Wait_stops_at_first_not_running exampleScript "hello" exampleStep 0 0 freshCluster
    (podIn "Pending" []) (Nat.le_refl 0) (fun i hi => absurd hi (Nat.not_lt_zero i)) rfl
    (by decide)).2.1 rfl

/-! ## `Exec` -/

theorem Exec_loop_pending {σ : Type} (e : engine σ) (name : String) (fuel : Nat) (p : Pod)
    (s : σ) (h : p.Status.Phase = "Pending") :
    engine.Exec.loop e name (fuel + 1) (some p) s = engine.Exec.waitForStart e name fuel s := by
  simp only [engine.Exec.loop, h, if_true, engine.Exec.waitForStart]

theorem Exec_loop_stop {σ : Type} (e : engine σ) (name : String) (fuel : Nat) (q : Pod)
    (s : σ) (h : q.Status.Phase ≠ "Pending") :
    engine.Exec.loop e name fuel (some q) s = some (.done none, s) := by
  cases fuel <;> simp [engine.Exec.loop, h]

/-- After `n` fetches that give a pod in phase `Pending`, the start-wait of `Exec`
ends on the first fetch that gives a pod in another phase, whatever the errors
of the fetches, and returns no error. -/
theorem Exec_poll (sc : Script) (ns name : String) :
    ∀ (n fuel : Nat) (c : Cluster), n ≤ fuel →
      (∀ i, i < n → ∃ p, (sc.fetch (c.fetched + i)).1 = some p ∧
        p.Status.Phase = "Pending") →
      ∀ q, (sc.fetch (c.fetched + n)).1 = some q → q.Status.Phase ≠ "Pending" →
      engine.Exec.waitForStart (sc.engine ns) name fuel c =
        some (.done none, c.afterFetches ns (convertName name) (n + 1)) := by
  intro n
  induction n with
  | zero =>
    intro fuel c _ _ q hq hphase
    rw [Nat.add_zero] at hq
    unfold engine.Exec.waitForStart
    rw [getPod_script]
    rcases hr : sc.fetch c.fetched with ⟨po, eo⟩
    rw [hr] at hq
    simp only at hq
    subst hq
    exact Exec_loop_stop _ _ _ _ _ hphase
  | succ n ih =>
    intro fuel c hfuel hpend q hq hphase
    obtain ⟨p, hp, hpphase⟩ := hpend 0 (Nat.succ_pos n)
    rw [Nat.add_zero] at hp
    obtain ⟨f, rfl⟩ : ∃ f, fuel = f + 1 := ⟨fuel - 1, by omega⟩
    unfold engine.Exec.waitForStart
    rw [getPod_script]
    rcases hr : sc.fetch c.fetched with ⟨po, eo⟩
    rw [hr] at hp
    simp only at hp
    subst hp
    simp only
    rw [Exec_loop_pending _ _ _ _ _ hpphase, ih f _ (by omega) _ q _ hphase, afterFetches_succ]
    · intro i hi
      rw [afterFetches_fetched]
      have := hpend (i + 1) (by omega)
      rwa [show c.fetched + 1 + i = c.fetched + (i + 1) by omega]
    · rw [afterFetches_fetched]
      rwa [show c.fetched + 1 + n = c.fetched + (n + 1) by omega]

theorem Exec_loop_no_error {σ : Type} (e : engine σ) (name : String) :
    ∀ (fuel : Nat) (po : Option Pod) (s : σ) (out : Run (Option Error)) (s1 : σ),
      engine.Exec.loop e name fuel po s = some (out, s1) →
      out = .done none ∨ out = .panicked .nilDereference := by
  intro fuel
  induction fuel with
  | zero =>
    intro po s out s1 h
    cases po with
    | none =>
      simp only [engine.Exec.loop, Option.some.injEq, Prod.mk.injEq] at h
      exact Or.inr h.1.symm
    | some p =>
      by_cases hp : p.Status.Phase = "Pending"
      · simp [engine.Exec.loop, hp] at h
      · simp only [engine.Exec.loop, hp, if_false, Option.some.injEq, Prod.mk.injEq] at h
        exact Or.inl h.1.symm
  | succ f ih =>
    intro po s out s1 h
    cases po with
    | none =>
      simp only [engine.Exec.loop, Option.some.injEq, Prod.mk.injEq] at h
      exact Or.inr h.1.symm
    | some p =>
      by_cases hp : p.Status.Phase = "Pending"
      · simp only [engine.Exec.loop, hp, if_true] at h
        exact ih _ _ _ _ h
      · simp only [engine.Exec.loop, hp, if_false, Option.some.injEq, Prod.mk.injEq] at h
        exact Or.inl h.1.symm

/-- On every client: once the creation of the pod has succeeded, `Exec` returns
no error, whatever the pod fetches of its start-wait reply. -/
theorem Exec_no_error_after_create {σ : Type} (e : engine σ)
    (order : List (String × String) → List (String × String)) (proc : Step) (fuel : Nat)
    (s s1 : σ) (out : Run (Option Error))
    (hcreate : (e.client.PodsCreate e.namespace_ (toConfig order proc e.namespace_) s).1.2 = none)
    (h : e.Exec order proc fuel s = some (out, s1)) :
    out = .done none ∨ out = .panicked .nilDereference := by
  simp only [engine.Exec] at h
  rcases hr : e.client.PodsCreate e.namespace_ (toConfig order proc e.namespace_) s with
    ⟨⟨po, eo⟩, s2⟩
  rw [hr] at hcreate h
  simp only at hcreate
  subst hcreate
  simp only [engine.Exec.waitForStart] at h
  exact Exec_loop_no_error e proc.Name fuel _ _ out s1 h

/-- Claim C2, as the code behaves: when the creation of the pod succeeds, the
start-wait of `Exec` observes `n` times the phase `Pending`, and the next fetch
fails with error `err` (the client returning an empty pod with it), `Exec`
returns no error: the error of the fetch is dropped. -/
theorem Exec_drops_fetch_error (sc : Script) (ns : String)
    (order : List (String × String) → List (String × String)) (proc : Step) (n fuel : Nat)
    (c : Cluster) (err : Error)
    (hcreate : sc.podCreate = none)
    (hfuel : n ≤ fuel)
    (hpend : ∀ i, i < n → ∃ p, sc.fetch (c.fetched + i) = observed p ∧
      p.Status.Phase = "Pending")
    (hfail : sc.fetch (c.fetched + n) = failed err) :
    (sc.engine ns).Exec order proc fuel c =
      some (.done none,
        (c.record (.podsCreate ns (toConfig order proc ns))).afterFetches ns
          (convertName proc.Name) (n + 1)) := by
  have hreply : (sc.engine ns).client.PodsCreate (sc.engine ns).namespace_
      (toConfig order proc (sc.engine ns).namespace_) c =
      ((some (toConfig order proc ns), none),
        c.record (.podsCreate ns (toConfig order proc ns))) := by
    rw [← hcreate]
    rfl
  simp only [engine.Exec]
  rw [hreply]
  refine Exec_poll sc ns proc.Name n fuel _ hfuel ?_ Pod.zero ?_ (by decide)
  · intro i hi
    obtain ⟨p, hp, hphase⟩ := hpend i hi
    exact ⟨p, by rw [show (c.record _).fetched = c.fetched from rfl, hp]; rfl, hphase⟩
  · rw [show (c.record _).fetched = c.fetched from rfl, hfail]
    rfl

/-- On the cluster of `lostScript`, where the pod is not found, `Exec` returns no
error after one fetch. -/
theorem Exec_drops_fetch_error_witness :
    (lostScript.engine "hello").Exec id exampleStep 0 freshCluster =
      some (.done none,
        (freshCluster.record (.podsCreate "hello" (toConfig id exampleStep "hello"))).afterFetches
          "hello" (convertName exampleStep.Name) 1) :=
  Exec_drops_fetch_error lostScript "hello" id exampleStep 0 0 freshCluster "not found" rfl
    (Nat.le_refl 0) (fun i hi => absurd hi (Nat.not_lt_zero i)) rfl

/-! ## The object addressed by creation, lookup and log stream -/

theorem afterFetches_zero (c : Cluster) (ns name : String) : c.afterFetches ns name 0 = c := by
  cases c
  simp [Cluster.afterFetches]

theorem Exec_loop_calls (sc : Script) (ns name : String) :
    ∀ (fuel : Nat) (po : Option Pod) (c c1 : Cluster) (out : Run (Option Error)),
      engine.Exec.loop (sc.engine ns) name fuel po c = some (out, c1) →
      ∃ k, c1 = c.afterFetches ns (convertName name) k := by
  intro fuel
  induction fuel with
  | zero =>
    intro po c c1 out h
    refine ⟨0, ?_⟩
    rw [afterFetches_zero]
    cases po with
    | none =>
      simp only [engine.Exec.loop, Option.some.injEq, Prod.mk.injEq] at h
      exact h.2.symm
    | some p =>
      by_cases hp : p.Status.Phase = "Pending"
      · simp [engine.Exec.loop, hp] at h
      · simp only [engine.Exec.loop, hp, if_false, Option.some.injEq, Prod.mk.injEq] at h
        exact h.2.symm
  | succ f ih =>
    intro po c c1 out h
    cases po with
    | none =>
      simp only [engine.Exec.loop, Option.some.injEq, Prod.mk.injEq] at h
      exact ⟨0, by rw [afterFetches_zero]; exact h.2.symm⟩
    | some p =>
      by_cases hp : p.Status.Phase = "Pending"
      · simp only [engine.Exec.loop, hp, if_true, getPod_script] at h
        obtain ⟨k, hk⟩ := ih _ _ _ _ h
        exact ⟨k + 1, by rw [hk, afterFetches_succ]⟩
      · simp only [engine.Exec.loop, hp, if_false, Option.some.injEq, Prod.mk.injEq] at h
        exact ⟨0, by rw [afterFetches_zero]; exact h.2.symm⟩

theorem Exec_calls (sc : Script) (ns : String)
    (order : List (String × String) → List (String × String)) (proc : Step) (fuel : Nat)
    (c c1 : Cluster) (out : Run (Option Error))
    (h : (sc.engine ns).Exec order proc fuel c = some (out, c1)) :
    ∃ k, c1.calls = c.calls ++ .podsCreate ns (toConfig order proc ns) ::
      List.replicate k (.podsGet ns (convertName proc.Name)) := by
  have hreply : (sc.engine ns).client.PodsCreate (sc.engine ns).namespace_
      (toConfig order proc (sc.engine ns).namespace_) c =
      ((some (toConfig order proc ns), sc.podCreate),
        c.record (.podsCreate ns (toConfig order proc ns))) := rfl
  simp only [engine.Exec] at h
  rw [hreply] at h
  cases hc : sc.podCreate with
  | some err =>
    rw [hc] at h
    simp only [Option.some.injEq, Prod.mk.injEq] at h
    exact ⟨0, by rw [← h.2]; simp [Cluster.record]⟩
  | none =>
    rw [hc] at h
    simp only [engine.Exec.waitForStart, getPod_script] at h
    obtain ⟨k, hk⟩ := Exec_loop_calls sc ns proc.Name fuel _ _ _ out h
    refine ⟨k + 1, ?_⟩
    rw [hk, afterFetches_succ]
    simp [Cluster.afterFetches, Cluster.record]

/-- Claim C7: the pod built by `toConfig` lies in the given namespace, has
restart policy `Never` and exactly one container; its name and the name of its
container are `convertName proc.Name`; and on every client, `getPod` looks up
and `Tail` streams the pod of that name in the namespace of the engine, which
is where `Exec` creates it. -/
theorem toConfig_names (order : List (String × String) → List (String × String))
    (proc : Step) (ns : String) :
    (toConfig order proc ns).ObjectMeta.Namespace = ns ∧
    (toConfig order proc ns).Spec.RestartPolicy = "Never" ∧
    (∃ c, (toConfig order proc ns).Spec.Containers = [c] ∧ c.Name = convertName proc.Name) ∧
    (toConfig order proc ns).ObjectMeta.Name = convertName proc.Name ∧
    (∀ (σ : Type) (e : engine σ) (s : σ),
      e.getPod proc.Name s =
        e.client.PodsGet (toConfig order proc e.namespace_).ObjectMeta.Namespace
          (toConfig order proc e.namespace_).ObjectMeta.Name s ∧
      e.Tail proc s =
        e.client.PodsLog (toConfig order proc e.namespace_).ObjectMeta.Namespace
          (toConfig order proc e.namespace_).ObjectMeta.Name "true" s) ∧
    (∀ (sc : Script) (c : Cluster),
      ((sc.engine ns).getPod proc.Name c).2.calls =
        c.calls ++ [.podsGet ns (toConfig order proc ns).ObjectMeta.Name] ∧
      ((sc.engine ns).Tail proc c).2.calls =
        c.calls ++ [.podsLog ns (toConfig order proc ns).ObjectMeta.Name "true"] ∧
      ∀ fuel out c1, (sc.engine ns).Exec order proc fuel c = some (out, c1) →
        ∃ k, c1.calls = c.calls ++ .podsCreate ns (toConfig order proc ns) ::
          List.replicate k (.podsGet ns (toConfig order proc ns).ObjectMeta.Name)) :=
  ⟨rfl, rfl, ⟨_, rfl, rfl⟩, rfl, fun _ _ _ => ⟨rfl, rfl⟩,
    fun sc c => ⟨rfl, rfl, fun fuel out c1 h => Exec_calls sc ns order proc fuel c c1 out h⟩⟩

/-! ## `Setup` -/

/-- Claim C8, amended: on a cluster where a namespace lookup succeeds exactly
when the namespace exists and a successful creation makes it exist, where the
namespace of the engine does not exist at first and the cluster accepts its
creation, two calls of `Setup` in a row both return no error and issue one
creation call in all: the cluster receives a lookup, a creation and a lookup. -/
theorem Setup_twice (sc : Script) (ns : String) (c : Cluster)
    (hnew : ns ∉ c.namespaces) (haccept : sc.refuse ns = none) :
    ((sc.engine ns).Setup c).1 = none ∧
    ((sc.engine ns).Setup ((sc.engine ns).Setup c).2).1 = none ∧
    ((sc.engine ns).Setup c).2.calls =
      c.calls ++ [.namespacesGet ns, .namespacesCreate ns] ∧
    ((sc.engine ns).Setup ((sc.engine ns).Setup c).2).2.calls =
      c.calls ++ [.namespacesGet ns, .namespacesCreate ns, .namespacesGet ns] ∧
    ((sc.engine ns).Setup c).2.creations = c.creations + 1 ∧
    ((sc.engine ns).Setup ((sc.engine ns).Setup c).2).2.creations = c.creations + 1 := by
  have h1 : (sc.engine ns).Setup c =
      (none, { namespaces := ns :: c.namespaces, fetched := c.fetched,
               calls := c.calls ++ [.namespacesGet ns, .namespacesCreate ns] }) := by
    simp [engine.Setup, Script.engine, Script.client, Cluster.record, hnew, haccept]
  have h2 : (sc.engine ns).Setup ((sc.engine ns).Setup c).2 =
      (none, { namespaces := ns :: c.namespaces, fetched := c.fetched,
               calls := c.calls ++ [.namespacesGet ns, .namespacesCreate ns,
                 .namespacesGet ns] }) := by
    rw [h1]
    simp [engine.Setup, Script.engine, Script.client, Cluster.record]
  rw [h2, h1]
  refine ⟨rfl, rfl, rfl, rfl, ?_, ?_⟩
  · simp [Cluster.creations, List.countP_append, List.countP_cons, Request.isNamespacesCreate]
  · simp [Cluster.creations, List.countP_append, List.countP_cons, Request.isNamespacesCreate]

/-- On the cluster `freshCluster`, which has no namespace `hello`, two calls of
`Setup` issue one creation call and return no error. -/
theorem Setup_twice_witness :
    ((exampleScript.engine "hello").Setup freshCluster).1 = none ∧
    ((exampleScript.engine "hello").Setup
      ((exampleScript.engine "hello").Setup freshCluster).2).1 = none ∧
    ((exampleScript.engine "hello").Setup
      ((exampleScript.engine "hello").Setup freshCluster).2).2.calls =
      [.namespacesGet "hello", .namespacesCreate "hello", .namespacesGet "hello"] ∧
    ((exampleScript.engine "hello").Setup
      ((exampleScript.engine "hello").Setup freshCluster).2).2.creations = 1 :=
  have h := Setup_twice exampleScript "hello" freshCluster (by decide) rfl
  ⟨h.1, h.2.1, h.2.2.2.1, h.2.2.2.2.2⟩

/-- When the creation of the namespace is refused, `Setup` returns the error of
the creation. -/
theorem Setup_refused (sc : Script) (ns : String) (c : Cluster) (err : Error)
    (hnew : ns ∉ c.namespaces) (hrefuse : sc.refuse ns = some err) :
    (sc.engine ns).Setup c =
      (some err, { c with calls := c.calls ++ [.namespacesGet ns, .namespacesCreate ns] }) := by
  simp [engine.Setup, Script.engine, Script.client, Cluster.record, hnew, hrefuse]

/-- When the namespace exists, `Setup` only looks it up. -/
theorem Setup_existing (sc : Script) (ns : String) (c : Cluster) (hold : ns ∈ c.namespaces) :
    (sc.engine ns).Setup c = (none, { c with calls := c.calls ++ [.namespacesGet ns] }) := by
  simp [engine.Setup, Script.engine, Script.client, Cluster.record, hold]

/-- The name `build-step-1` has no underscore and is returned unchanged. -/
theorem convertName_idempotent_witness :
    convertName (convertName "build_step_1") = convertName "build_step_1" ∧
    convertName "build-step-1" = "build-step-1" :=
  ⟨(convertName_idempotent "build_step_1").1,
    (convertName_idempotent "build-step-1").2 (by decide)⟩

/-- On the cluster of `exampleScript`, `Exec` creates the pod `build-step-1` in
namespace `hello` and then looks up that pod twice. -/
theorem toConfig_names_witness :
    ∃ k, ((freshCluster.record (.podsCreate "hello" (toConfig id exampleStep "hello"))).afterFetches
        "hello" "build-step-1" 2).calls =
      [] ++ .podsCreate "hello" (toConfig id exampleStep "hello") ::
        List.replicate k (.podsGet "hello" (toConfig id exampleStep "hello").ObjectMeta.Name) :=
  ((toConfig_names id exampleStep "hello").2.2.2.2.2 exampleScript freshCluster).2.2 1
    (.done none) _ (by decide)

/-- Claim C8 as stated fails: on the cluster of `refusingScript`, where a lookup
succeeds exactly when the namespace exists and a successful creation makes it
exist, the namespace `hello` does not exist at first, yet two calls of `Setup`
issue two creation calls and both return the error of the creation. -/
theorem Setup_twice_refusing_cluster :
    "hello" ∉ freshCluster.namespaces ∧
    ((refusingScript.engine "hello").Setup freshCluster).1 = some "forbidden" ∧
    ((refusingScript.engine "hello").Setup
      ((refusingScript.engine "hello").Setup freshCluster).2).1 = some "forbidden" ∧
    ((refusingScript.engine "hello").Setup
      ((refusingScript.engine "hello").Setup freshCluster).2).2.calls =
      [.namespacesGet "hello", .namespacesCreate "hello",
        .namespacesGet "hello", .namespacesCreate "hello"] ∧
    ((refusingScript.engine "hello").Setup
      ((refusingScript.engine "hello").Setup freshCluster).2).2.creations = 2 ∧
    ¬ (((refusingScript.engine "hello").Setup freshCluster).1 = none ∧
      ((refusingScript.engine "hello").Setup
        ((refusingScript.engine "hello").Setup freshCluster).2).1 = none ∧
      ((refusingScript.engine "hello").Setup
        ((refusingScript.engine "hello").Setup freshCluster).2).2.creations =
        freshCluster.creations + 1) := by
  decide

end Kubernetes
